import Mathlib

/-!
Verification of the gdpr-obfuscator repository.

This file shallowly embeds the core of the repository:

* `src/src/gdpr_obfuscator.py` — `obfuscate_pii`, built on Python's `csv`
  module (`csv.DictReader` / `csv.DictWriter`, excel dialect).
* `src/src/obfuscator.py` — `GDPRObfuscator.obfuscate_csv`, built on pandas.
* `src/lambda_function/lambda_function.py` — `lambda_handler`.
* `src/src/handler.py` — the second `lambda_handler` variant.

S3 is modelled as a partial map from (bucket, key) to object contents, and
every run of the engine also yields the trace of store operations it
attempted, so that "rejected before any store access" claims are statable.

CSV layer. The parser below follows the excel dialect of Python's `csv`
reader: `,` delimiter, `"` quote char, doubled quotes inside quoted fields,
a quote inside an unquoted field is literal data, and a stray character
after a closing quote re-enters unquoted mode (non-strict repair). Each of
`\r` and `\n` terminates a record, so a `\r\n` pair produces the record
followed by one empty record; Python's reader consumes the pair at once.
Both `csv.DictReader` and pandas (`skip_blank_lines=True`) discard empty
records, which is where the two views coincide: the reader layers below
always filter empty records out of the data rows, so the observable rows
agree with Python's. One known divergence: a lone `\r` followed directly by
further data ends a record here, whereas Python's reader raises
`Error: new-line character seen in unquoted field`; no input exercised by
the theorems below contains a bare `\r` not produced by the writer. The
writer matches `csv.writer` with QUOTE_MINIMAL and the default `\r\n` line
terminator, including its record-level rule that a record consisting of a
single empty field is written as a quoted empty field.
-/

inductive CMode where
  | sf   -- at the start of a field
  | inf  -- inside an unquoted field
  | q    -- inside a quoted field
  | qq   -- just saw a quote inside a quoted field
deriving DecidableEq

/-- Character-level CSV record scanner (excel dialect, see header comment).
Arguments: mode, remaining input, current field, current record, finished
records. -/
def parseAux : CMode → List Char → List Char → List String → List (List String) → List (List String)
  | .sf, [], _f, r, rows => if r = [] then rows else rows ++ [r ++ [""]]
  | .inf, [], f, r, rows => rows ++ [r ++ [String.mk f]]
  | .q, [], f, r, rows => rows ++ [r ++ [String.mk f]]
  | .qq, [], f, r, rows => rows ++ [r ++ [String.mk f]]
  | .sf, c :: cs, f, r, rows =>
    if c = '"' then parseAux .q cs f r rows
    else if c = ',' then parseAux .sf cs [] (r ++ [""]) rows
    else if c = '\r' ∨ c = '\n' then
      parseAux .sf cs [] [] (rows ++ [if r = [] then [] else r ++ [""]])
    else parseAux .inf cs (f ++ [c]) r rows
  | .inf, c :: cs, f, r, rows =>
    if c = ',' then parseAux .sf cs [] (r ++ [String.mk f]) rows
    else if c = '\r' ∨ c = '\n' then
      parseAux .sf cs [] [] (rows ++ [r ++ [String.mk f]])
    else parseAux .inf cs (f ++ [c]) r rows
  | .q, c :: cs, f, r, rows =>
    if c = '"' then parseAux .qq cs f r rows
    else parseAux .q cs (f ++ [c]) r rows
  | .qq, c :: cs, f, r, rows =>
    if c = '"' then parseAux .q cs (f ++ [c]) r rows
    else if c = ',' then parseAux .sf cs [] (r ++ [String.mk f]) rows
    else if c = '\r' ∨ c = '\n' then
      parseAux .sf cs [] [] (rows ++ [r ++ [String.mk f]])
    else parseAux .inf cs (f ++ [c]) r rows

/-- All raw CSV records of a string, empty records included. -/
def csvParseRaw (s : String) : List (List String) :=
  parseAux .sf s.data [] [] []

/-- QUOTE_MINIMAL: a cell is quoted iff it contains the delimiter, the
quote char, or a line-terminator character. -/
def needsQuote (s : String) : Bool :=
  s.data.any fun c => c = ',' || c = '"' || c = '\r' || c = '\n'

/-- Double every quote char (the excel-dialect escape). -/
def escQuote : List Char → List Char
  | [] => []
  | c :: cs => if c = '"' then '"' :: '"' :: escQuote cs else c :: escQuote cs

/-- Serialize one cell as `csv.writer` (QUOTE_MINIMAL) does. -/
def writeCell (s : String) : String :=
  if needsQuote s then "\"" ++ String.mk (escQuote s.data) ++ "\"" else s

/-- Join with the `,` delimiter. -/
def joinComma : List String → String
  | [] => ""
  | [x] => x
  | x :: y :: ys => x ++ "," ++ joinComma (y :: ys)

/-- Serialize one record with the writer line terminator `\r\n`.
QUOTE_MINIMAL has one record-level rule on top of the per-cell one: a record
consisting of a single empty field is written as a quoted empty field, so
that the line is not read back as an empty record. -/
def writeRow (r : List String) : String :=
  if r = [""] then "\"\"\r\n"
  else joinComma (r.map writeCell) ++ "\r\n"

/-- Serialize a list of records. -/
def writeRows : List (List String) → String
  | [] => ""
  | r :: rs => writeRow r ++ writeRows rs

/-- A character the writer leaves unquoted. -/
def plainChar (c : Char) : Prop :=
  c ≠ ',' ∧ c ≠ '"' ∧ c ≠ '\r' ∧ c ≠ '\n'

/-- Each record of `rs` followed by the blank record its `\r\n` produces. -/
def blankSep : List (List String) → List (List String)
  | [] => []
  | r :: rs => r :: [] :: blankSep rs

example : csvParseRaw "id,name\r\n1,John\r\n" =
    [["id", "name"], [], ["1", "John"], []] := by decide
example : csvParseRaw "id,name\n\"1\",John\n" =
    [["id", "name"], ["1", "John"]] := by decide
example : csvParseRaw "a,\"b,\"\"c\"\"\"\nx," =
    [["a", "b,\"c\""], ["x", ""]] := by decide
example : csvParseRaw "" = [] := by decide
example : csvParseRaw "\n" = [[]] := by decide
example : writeRow ["a", "b,\"c\"", ""] = "a,\"b,\"\"c\"\"\",\r\n" := by decide
example : writeRow [""] = "\"\"\r\n" := by decide
example : csvParseRaw "\"\"\r\n" = [[""], []] := by decide
example : writeRows [["id", "name"], ["1", "***"]] = "id,name\r\n1,***\r\n" := by
  decide

/-!
DictReader/DictWriter row model (`gdpr_obfuscator.py`, lines 98-107).

`csv.DictReader` turns a record into `dict(zip(fieldnames, row))`, then maps
every leftover field name (when the record is shorter than the header) to the
rest value `None`.  We represent such a dict as an association list in which a
later insertion shadows every earlier one, by placing later insertions in
front; `dlookup` returns the first match.  Cell values are `Option String`
(`none` is Python's `None`, which `csv.writer` renders as the empty string).
-/

/-- First-match lookup in the association-list dict representation. -/
def dlookup : List (String × Option String) → String → Option (Option String)
  | [], _ => none
  | (k, v) :: d, name => if k = name then some v else dlookup d name

/-- The dict `csv.DictReader` builds for one record: `dict(zip(fieldnames,
row))`, then `d[key] = None` for each `key in fieldnames[len(row):]`.  The
reversed blocks encode insertion order (the rest-value loop runs last, and
within each loop later iterations shadow earlier ones). -/
def buildDict (fieldnames row : List String) : List (String × Option String) :=
  ((fieldnames.drop row.length).map fun k => (k, (none : Option String))).reverse
    ++ ((fieldnames.zip row).map fun p => (p.1, some p.2)).reverse

/-- The masking loop of `obfuscate_pii` (lines 104-105): `row[field] = '***'`
for each `field in pii_fields`, on top of the reader's dict. -/
def maskDict (pii : List String) (d : List (String × Option String)) :
    List (String × Option String) :=
  (pii.map fun f => (f, some "***")).reverse ++ d

/-- The cell `csv.DictWriter` emits for column `name`: the masked dict value,
with `None` rendered empty. -/
def writtenCell (fieldnames pii row : List String) (name : String) : String :=
  match dlookup (maskDict pii (buildDict fieldnames row)) name with
  | some (some s) => s
  | some none => ""
  | none => ""

/-- One iteration of the row loop of `obfuscate_pii` (lines 103-107): read the
record as a dict, set every PII field to the sentinel, and write it back with
`csv.DictWriter.writerow`.  A record longer than the header puts its excess
under the rest key `None`, which makes `writerow` raise `ValueError` because
`None` is not a field name (in the pipeline `pii ⊆ fieldnames` has already
been validated, so that is the only way `writerow` can raise). -/
def maskRow (fieldnames pii row : List String) : Except String (List String) :=
  if fieldnames.length < row.length then
    .error "dict contains fields not in fieldnames"
  else
    .ok (fieldnames.map (writtenCell fieldnames pii row))

/-- The whole row loop; the first failing record aborts with its error, as the
Python exception does. -/
def maskRows (fieldnames pii : List String) :
    List (List String) → Except String (List (List String))
  | [] => .ok []
  | r :: rs =>
    match maskRow fieldnames pii r with
    | .error e => .error e
    | .ok m =>
      match maskRows fieldnames pii rs with
      | .error e => .error e
      | .ok ms => .ok (m :: ms)

/-- The CSV stage of `obfuscate_pii` (lines 79-111): header extraction and
check, PII-field membership validation (first offender aborts), the masking
loop over the non-empty records, and serialization (`writeheader` + rows).
Python decorates the unknown-field message with single quotes around the
name; the quotes are omitted here. -/
def processCsv (csv_content : String) (pii_fields : List String) :
    Except String String :=
  match csvParseRaw csv_content with
  | [] => .error "CSV file has no headers"
  | fieldnames :: rest =>
    if fieldnames = [] then .error "CSV file has no headers"
    else
      match pii_fields.find? (fun f => !(fieldnames.contains f)) with
      | some f => .error ("PII field " ++ f ++ " not found in CSV headers")
      | none =>
        match maskRows fieldnames pii_fields (rest.filter (· ≠ [])) with
        | .error e => .error e
        | .ok masked => .ok (writeRow fieldnames ++ writeRows masked)

/-! S3 and the request layer. -/

/-- The object store: a partial map from bucket and key to contents. -/
structure Store where
  objects : String → String → Option String

/-- One attempted store operation, for access-trace reasoning. -/
inductive S3Op where
  | get (bucket key : String)
  | put (bucket key body : String)
deriving DecidableEq

/-- The exception class a failing call raises, as far as the handlers can
distinguish it: `valueError` is the `ValueError` the engine raises on every
validation and processing failure (tuple unpacking included), and
`paramValidationError` is botocore client-side parameter validation —
raised by `get_object`/`put_object` on an empty `Key` before any store
access, and caught by neither `except ValueError` nor `except ClientError`. -/
inductive PyErr where
  | valueError (msg : String)
  | paramValidationError (msg : String)
deriving DecidableEq

/-- The botocore message for an empty object key (modelled single-line). -/
def keyLenMsg : String :=
  "Parameter validation failed: Invalid length for parameter Key, value: 0, valid min length: 1"

/-- The shape of the `pii_fields` JSON value: a list of strings, or present
but not a list (`isinstance(pii_fields, list)` fails). -/
inductive PiiSpec where
  | strs (fields : List String)
  | nonList
deriving DecidableEq

/-- The decoded input JSON of `obfuscate_pii`; `none` models an absent key.
(The JSON-decode failure branch, lines 34-38, is prior to this structure and
not modelled.) -/
structure InputData where
  file_to_obfuscate : Option String
  pii_fields : Option PiiSpec
  output_location : Option String

/-- Python's `s.split("/", 1)` when it yields two parts; `none` when `s`
contains no `/`, where the two-target unpacking raises `ValueError`. -/
def splitSlashAux : List Char → Option (List Char × List Char)
  | [] => none
  | c :: cs =>
    if c = '/' then some ([], cs)
    else (splitSlashAux cs).map fun p => (c :: p.1, p.2)

/-- `bucket, key = s.split("/", 1)` on the scheme-stripped path. -/
def splitFirstSlash (s : String) : Option (String × String) :=
  (splitSlashAux s.data).map fun p => (String.mk p.1, String.mk p.2)

/-- Python's `s.startswith(pre)` (kernel-reducible, unlike
`String.startsWith`). -/
def strStartsWith (s pre : String) : Bool :=
  pre.data.isPrefixOf s.data

/-- Python's `s[n:]` (kernel-reducible, unlike `String.drop`). -/
def strDrop (s : String) (n : Nat) : String :=
  String.mk (s.data.drop n)

/-- Python's `pat in s` substring test, at the character-list level. -/
def hasInfixChars (pat : List Char) : List Char → Bool
  | [] => pat.isEmpty
  | c :: cs => pat.isPrefixOf (c :: cs) || hasInfixChars pat cs

/-- Python's `pat in s` substring test on strings. -/
def hasSubstr (pat s : String) : Bool :=
  hasInfixChars pat.data s.data

/-- `obfuscate_pii` (`src/src/gdpr_obfuscator.py`), from the decoded input
value on.  Returns the Python outcome (raised exception or returned bytes)
together with the trace of store operations attempted.  A missing `/` in a
location string is the uncaught unpacking `ValueError` of lines 52 and 116.
An empty key makes `get_object`/`put_object` raise the client-side
`ParamValidationError` before any store access (bucket-name validation is
not modelled; no claim exercises an empty bucket).  `putFails` says whether
`put_object` raises `ClientError` for a given bucket and key; the source
catches exactly that exception on the secondary write (lines 125-126), so
both branches of that test return the primary result. -/
def obfuscate_pii (store : Store) (putFails : String → String → Bool)
    (input : InputData) : Except PyErr String × List S3Op :=
  match input.file_to_obfuscate, input.pii_fields with
  | none, _ => (.error (.valueError "Missing required keys in input JSON"), [])
  | some _, none =>
    (.error (.valueError "Missing required keys in input JSON"), [])
  | some s3_path, some pspec =>
    match pspec with
    | .nonList => (.error (.valueError "pii_fields must be a list"), [])
    | .strs pii_fields =>
      if ¬ strStartsWith s3_path "s3://" then
        (.error (.valueError "Invalid S3 path"), [])
      else
        match splitFirstSlash (strDrop s3_path 5) with
        | none =>
          (.error (.valueError "not enough values to unpack (expected 2, got 1)"),
            [])
        | some (bucket, key) =>
          if hasSubstr ".." key || strStartsWith key "/" then
            (.error (.valueError "Invalid S3 key: potential path traversal detected"),
              [])
          else if key = "" then
            (.error (.paramValidationError keyLenMsg), [])
          else
            match store.objects bucket key with
            | none => (.error (.valueError "S3 file not found"), [.get bucket key])
            | some csv_content =>
              match processCsv csv_content pii_fields with
              | .error e => (.error (.valueError e), [.get bucket key])
              | .ok result =>
                match input.output_location with
                | none => (.ok result, [.get bucket key])
                | some ol =>
                  if ol ≠ "" ∧ strStartsWith ol "s3://" then
                    match splitFirstSlash (strDrop ol 5) with
                    | none =>
                      (.error
                        (.valueError "not enough values to unpack (expected 2, got 1)"),
                        [.get bucket key])
                    | some (ob, okey) =>
                      if okey = "" then
                        (.error (.paramValidationError keyLenMsg),
                          [.get bucket key])
                      else if putFails ob okey then
                        (.ok result, [.get bucket key, .put ob okey result])
                      else
                        (.ok result, [.get bucket key, .put ob okey result])
                  else (.ok result, [.get bucket key])

deriving instance DecidableEq for Except

/-- A one-object store, for concrete runs. -/
def store1 (b k body : String) : Store :=
  ⟨fun b2 k2 => if b2 = b ∧ k2 = k then some body else none⟩

example :
    (obfuscate_pii (store1 "bkt" "in.csv" "id,name,email\n1,John,j@x.com\n")
      (fun _ _ => false)
      ⟨some "s3://bkt/in.csv", some (.strs ["name", "email"]), none⟩).1
      = .ok "id,name,email\r\n1,***,***\r\n" := by decide

example :
    (obfuscate_pii (store1 "bkt" "in.csv" "id,name\n1,John\n")
      (fun _ _ => false)
      ⟨some "s3://bkt/in.csv", some (.strs ["ssn"]), none⟩).1
      = .error (.valueError "PII field ssn not found in CSV headers") := by
  decide

/-!
The pandas engine (`src/src/obfuscator.py`, `GDPRObfuscator.obfuscate_csv`
with the default sentinel, and `validate_input`).  `pd.read_csv` is modelled
with the same record scanner, with `skip_blank_lines=True` (blank records are
dropped everywhere, including before the header row).  pandas' dtype
inference (for example `01` read back as the integer `1`) and its renaming of
duplicate column labels are outside this model; every claim settled against
it only involves inputs on which parsing is the identity on cell text.
`df.empty` is true exactly when the frame has zero data rows; `df[field] =
'***'` overwrites every column carrying that label; `to_csv(index=False)`
writes with QUOTE_MINIMAL and a bare `\n` terminator.
-/

/-- `df[field] = sentinel` for each field, then one row of
`to_csv`: position `j` carries the sentinel iff the label at `j` is a PII
field, otherwise the cell text (missing cells are NaN, written as empty). -/
def maskPositional (header pii r : List String) : List String :=
  (List.range header.length).map fun j =>
    if pii.contains (header.getD j "") then "***" else r.getD j ""

/-- One record serialized by `to_csv` (line terminator `\n`). -/
def writeRowLF (r : List String) : String :=
  joinComma (r.map writeCell) ++ "\n"

/-- Records serialized by `to_csv`. -/
def writeRowsLF : List (List String) → String
  | [] => ""
  | r :: rs => writeRowLF r ++ writeRowsLF rs

/-- `GDPRObfuscator.obfuscate_csv` (lines 41-77) with `validate_input`
(lines 23-39): read the frame, fail on an empty frame, fail on PII fields
absent from the columns (message lists all offenders), else overwrite the
PII columns with the sentinel and re-serialize.  An input with no parsable
columns raises pandas' `EmptyDataError`. -/
def obfuscate_csv (csv_data : String) (pii_fields : List String) :
    Except String String :=
  match (csvParseRaw csv_data).filter (· ≠ []) with
  | [] => .error "No columns to parse from file"
  | header :: rows =>
    if rows = [] then .error "Input DataFrame is empty"
    else
      match pii_fields.filter (fun f => !(header.contains f)) with
      | [] =>
        .ok (writeRowLF header
          ++ writeRowsLF (rows.map (maskPositional header pii_fields)))
      | f :: fs => .error ("Invalid PII fields: " ++ joinComma (f :: fs))

/-!
The two request handlers.
-/

/-- A handler response: status code and body.  For the 200 responses the
handlers wrap or re-encode the payload (`isBase64Encoded`, `json.dumps`);
the body here is the payload itself, and the claims concern the codes. -/
structure LambdaResponse where
  statusCode : Nat
  body : String
deriving DecidableEq

/-- Python's `s.split(',')` (never returns an empty list). -/
def splitCommaAux : List Char → List Char → List String
  | [], acc => [String.mk acc]
  | c :: cs, acc =>
    if c = ',' then String.mk acc :: splitCommaAux cs []
    else splitCommaAux cs (acc ++ [c])

/-- Python's `s.split(',')`. -/
def splitComma (s : String) : List String :=
  splitCommaAux s.data []

/-- The event of `lambda_function.lambda_handler`: `none` models an absent
key; `records` is the bucket and key of `event.Records[0].s3` when the
`Records` list is present and non-empty. -/
structure LambdaEvent where
  pii_fields : Option PiiSpec
  file_to_obfuscate : Option String
  records : Option (String × String)
  output_path : Option String

/-- Python truthiness of an optional string (`None` and `""` are falsy). -/
def truthyStr : Option String → Option String
  | none => none
  | some s => if s = "" then none else some s

/-- Lines 98-135 of `lambda_function.py`: map the engine outcome to a
response.  `ValueError`s whose text contains `S3 file not found` give 404
and every other `ValueError` gives 400 (the inner `except ValueError`);
success gives 200 with the payload; any other exception — here
`ParamValidationError` — falls through to the outer `except Exception` and
gives 500. -/
def lambdaFinish (res : Except PyErr String) : LambdaResponse :=
  match res with
  | .ok r => ⟨200, r⟩
  | .error (.valueError e) =>
    if hasSubstr "S3 file not found" e then ⟨404, "File not found"⟩
    else ⟨400, e⟩
  | .error (.paramValidationError e) => ⟨500, "Error processing file: " ++ e⟩

/-- Lines 60-96 of `lambda_function.py`: build the engine input from a direct
invocation or from an S3 event record and run the engine. -/
def lambdaRun (store : Store) (putFails : String → String → Bool)
    (event : LambdaEvent) (pii : List String) : LambdaResponse :=
  match event.file_to_obfuscate with
  | some p =>
    lambdaFinish (obfuscate_pii store putFails
      ⟨some p, some (.strs pii), truthyStr event.output_path⟩).1
  | none =>
    match event.records with
    | some (b, k) =>
      lambdaFinish (obfuscate_pii store putFails
        ⟨some ("s3://" ++ b ++ "/" ++ k), some (.strs pii),
          truthyStr event.output_path⟩).1
    | none => ⟨400, "Invalid event structure"⟩

/-- `lambda_function.lambda_handler` (`src/lambda_function/lambda_function.py`):
resolve the PII field list from the event or the `PII_FIELDS` environment
variable, then run the engine and map the outcome.  The post-split emptiness
test of lines 51-56 is kept even though `split(',')` never yields an empty
list.  The outer 500 branch (lines 130-135) catches non-`ValueError`
exceptions, which the modelled engine never raises. -/
def lambda_handler (store : Store) (putFails : String → String → Bool)
    (envPiiFields : Option String) (event : LambdaEvent) : LambdaResponse :=
  match event.pii_fields with
  | some .nonList => ⟨400, "PII fields must be a non-empty list"⟩
  | some (.strs l) =>
    if l = [] then ⟨400, "PII fields must be a non-empty list"⟩
    else lambdaRun store putFails event l
  | none =>
    match truthyStr envPiiFields with
    | none => ⟨400, "PII_FIELDS environment variable must be set"⟩
    | some s =>
      let fields := splitComma s
      if fields = [] then ⟨400, "PII_FIELDS cannot be empty"⟩
      else lambdaRun store putFails event fields

/-- Python's `s.lstrip('/')`. -/
def lstripSlash (s : String) : String :=
  String.mk (s.data.dropWhile (· = '/'))

/-- `urlparse` + `lstrip('/')` as used by `src/src/handler.py` (lines 30-32),
modelled for the `s3://bucket/key` shapes the handler receives: netloc is the
segment between the scheme and the first `/`, and the key is the path with
leading separators stripped. -/
def urlparseS3 (s : String) : String × String :=
  if strStartsWith s "s3://" then
    match splitFirstSlash (strDrop s 5) with
    | some (b, k) => (b, lstripSlash k)
    | none => (strDrop s 5, "")
  else ("", lstripSlash s)

/-- The second `lambda_handler` (`src/src/handler.py`): falsy
`file_to_obfuscate` or `pii_fields` is "Missing required parameters"; the
blanket `except Exception` turns every failure — a missing source object
(`ClientError` from `get_object`), an empty key (`ParamValidationError`
from `get_object`), and any engine error — into a 400 response.  There is
no 404 or 500 branch in this handler. -/
def handler2 (store : Store) (event_file : Option String)
    (event_pii : Option PiiSpec) : LambdaResponse :=
  match event_file, event_pii with
  | some s3_path, some pspec =>
    if s3_path = "" ∨ pspec = .strs [] then ⟨400, "Missing required parameters"⟩
    else
      let bk := urlparseS3 s3_path
      if bk.2 = "" then ⟨400, keyLenMsg⟩
      else match store.objects bk.1 bk.2 with
      | none => ⟨400, "An error occurred (NoSuchKey) when calling the GetObject operation"⟩
      | some content =>
        match pspec with
        | .nonList => ⟨400, "argument of type PiiSpec.nonList is not iterable"⟩
        | .strs pii =>
          match obfuscate_csv content pii with
          | .ok r => ⟨200, r⟩
          | .error e => ⟨400, e⟩
  | _, _ => ⟨400, "Missing required parameters"⟩

example :
    obfuscate_csv "id,name\n1,John\n2,Jane\n" ["name"]
      = .ok "id,name\n1,***\n2,***\n" := by decide
example :
    obfuscate_csv "id,name\n" ["name"] = .error "Input DataFrame is empty" := by
  decide
example :
    lambda_handler (store1 "b" "k.csv" "id,name\n1,John\n") (fun _ _ => false)
      none ⟨some (.strs ["name"]), some "s3://b/k.csv", none, none⟩
      = ⟨200, "id,name\r\n1,***\r\n"⟩ := by decide
example :
    lambda_handler (store1 "b" "k.csv" "id,name\n1,John\n") (fun _ _ => false)
      none ⟨some (.strs ["name"]), some "s3://b/missing.csv", none, none⟩
      = ⟨404, "File not found"⟩ := by decide
example :
    handler2 (store1 "b" "k.csv" "id,name\n1,John\n") (some "s3://b/k.csv")
      (some (.strs ["name"])) = ⟨200, "id,name\n1,***\n"⟩ := by decide



/-!
Round-trip: parsing the writer's output recovers the records.  Because each
`\r` and `\n` terminates a record here, the writer's `\r\n` terminator yields
each record followed by one blank record (`blankSep`); the reader layers
filter the blanks out.  A record consisting of a single empty field is
written quoted (the record-level QUOTE_MINIMAL rule), so every non-empty
record round-trips.
-/

theorem parseAux_sf_cons (c : Char) (cs f : List Char) (r : List String)
    (rows : List (List String)) :
    parseAux .sf (c :: cs) f r rows
      = if c = '"' then parseAux .q cs f r rows
        else if c = ',' then parseAux .sf cs [] (r ++ [""]) rows
        else if c = '\r' ∨ c = '\n' then
          parseAux .sf cs [] [] (rows ++ [if r = [] then [] else r ++ [""]])
        else parseAux .inf cs (f ++ [c]) r rows := rfl

theorem parseAux_inf_cons (c : Char) (cs f : List Char) (r : List String)
    (rows : List (List String)) :
    parseAux .inf (c :: cs) f r rows
      = if c = ',' then parseAux .sf cs [] (r ++ [String.mk f]) rows
        else if c = '\r' ∨ c = '\n' then
          parseAux .sf cs [] [] (rows ++ [r ++ [String.mk f]])
        else parseAux .inf cs (f ++ [c]) r rows := rfl

theorem parseAux_q_cons (c : Char) (cs f : List Char) (r : List String)
    (rows : List (List String)) :
    parseAux .q (c :: cs) f r rows
      = if c = '"' then parseAux .qq cs f r rows
        else parseAux .q cs (f ++ [c]) r rows := rfl

theorem parseAux_qq_cons (c : Char) (cs f : List Char) (r : List String)
    (rows : List (List String)) :
    parseAux .qq (c :: cs) f r rows
      = if c = '"' then parseAux .q cs (f ++ [c]) r rows
        else if c = ',' then parseAux .sf cs [] (r ++ [String.mk f]) rows
        else if c = '\r' ∨ c = '\n' then
          parseAux .sf cs [] [] (rows ++ [r ++ [String.mk f]])
        else parseAux .inf cs (f ++ [c]) r rows := rfl

theorem needsQuote_false_iff (s : String) :
    needsQuote s = false ↔ ∀ c ∈ s.data, plainChar c := by
  simp [needsQuote, plainChar, not_or, and_assoc]

theorem consume_plain (l : List Char) (h : ∀ c ∈ l, plainChar c) :
    ∀ cs f r rows,
      parseAux .inf (l ++ cs) f r rows = parseAux .inf cs (f ++ l) r rows := by
  induction l with
  | nil => intro cs f r rows; simp
  | cons c l ih =>
    intro cs f r rows
    obtain ⟨h1, h2, h3, h4⟩ := h c (List.mem_cons_self c l)
    have hl : ∀ x ∈ l, plainChar x := fun x hx => h x (List.mem_cons_of_mem _ hx)
    rw [List.cons_append, parseAux_inf_cons, if_neg h1,
      if_neg (fun hor => hor.elim h3 h4), ih hl]
    simp

theorem consume_quoted (l : List Char) :
    ∀ cs f r rows,
      parseAux .q (escQuote l ++ '"' :: cs) f r rows
        = parseAux .qq cs (f ++ l) r rows := by
  induction l with
  | nil =>
    intro cs f r rows
    rw [show escQuote [] = [] from rfl, List.nil_append, parseAux_q_cons,
      if_pos rfl]
    simp
  | cons c l ih =>
    intro cs f r rows
    by_cases hc : c = '"'
    · subst hc
      rw [show escQuote ('"' :: l) = '"' :: '"' :: escQuote l from by
        simp [escQuote]]
      rw [List.cons_append, parseAux_q_cons, if_pos rfl, List.cons_append,
        parseAux_qq_cons, if_pos rfl, ih]
      simp
    · rw [show escQuote (c :: l) = c :: escQuote l from by simp [escQuote, hc]]
      rw [List.cons_append, parseAux_q_cons, if_neg hc, ih]
      simp

/-- After consuming one serialized cell from start-of-field state, the
scanner is in the state this formula describes. -/
theorem cell_then (s : String) (cs : List Char) (r : List String)
    (rows : List (List String)) :
    parseAux .sf ((writeCell s).data ++ cs) [] r rows
      = if needsQuote s then parseAux .qq cs s.data r rows
        else if s = "" then parseAux .sf cs [] r rows
        else parseAux .inf cs s.data r rows := by
  by_cases hq : needsQuote s
  · rw [if_pos hq]
    have hdata : (writeCell s).data = '"' :: (escQuote s.data ++ ['"']) := by
      simp [writeCell, if_pos hq, String.data_append]
    rw [hdata, List.cons_append, List.append_assoc, List.singleton_append,
      parseAux_sf_cons, if_pos rfl, consume_quoted s.data cs [] r rows]
    simp
  · rw [if_neg hq]
    have hplain := (needsQuote_false_iff s).mp (Bool.eq_false_iff.mpr hq)
    have hdata : (writeCell s).data = s.data := by simp [writeCell, hq]
    rw [hdata]
    by_cases hs : s = ""
    · subst hs; rw [if_pos rfl]; rfl
    · rw [if_neg hs]
      have hsd : s.data ≠ [] := fun hh => hs (by
        have := congrArg String.mk hh; simpa using this)
      match hmatch : s.data with
      | [] => exact absurd hmatch hsd
      | c :: l =>
        obtain ⟨h1, h2, h3, h4⟩ :=
          hplain c (by rw [hmatch]; exact List.mem_cons_self c l)
        have hl : ∀ x ∈ l, plainChar x := fun x hx =>
          hplain x (by rw [hmatch]; exact List.mem_cons_of_mem _ hx)
        rw [List.cons_append, parseAux_sf_cons, if_neg h2, if_neg h1,
          if_neg (fun hor => hor.elim h3 h4),
          consume_plain l hl cs ([] ++ [c]) r rows]
        simp

theorem cell_comma (s : String) (cs : List Char) (r : List String)
    (rows : List (List String)) :
    parseAux .sf ((writeCell s).data ++ ',' :: cs) [] r rows
      = parseAux .sf cs [] (r ++ [s]) rows := by
  rw [cell_then]
  by_cases hq : needsQuote s
  · rw [if_pos hq, parseAux_qq_cons, if_neg (by decide), if_pos rfl]
  · rw [if_neg hq]
    by_cases hs : s = ""
    · subst hs; rw [if_pos rfl, parseAux_sf_cons, if_neg (by decide), if_pos rfl]
    · rw [if_neg hs, parseAux_inf_cons, if_pos rfl]

theorem cell_crlf (s : String) (cs : List Char) (r : List String)
    (rows : List (List String)) (h : ¬(r = [] ∧ s = "")) :
    parseAux .sf ((writeCell s).data ++ '\r' :: '\n' :: cs) [] r rows
      = parseAux .sf cs [] [] (rows ++ [r ++ [s], []]) := by
  rw [cell_then]
  by_cases hq : needsQuote s
  · rw [if_pos hq, parseAux_qq_cons, if_neg (by decide), if_neg (by decide),
      if_pos (Or.inl rfl), parseAux_sf_cons, if_neg (by decide),
      if_neg (by decide), if_pos (Or.inr rfl), if_pos rfl]
    simp
  · rw [if_neg hq]
    by_cases hs : s = ""
    · subst hs
      have hr : r ≠ [] := fun hr => h ⟨hr, rfl⟩
      rw [if_pos rfl, parseAux_sf_cons, if_neg (by decide), if_neg (by decide),
        if_pos (Or.inl rfl), if_neg hr, parseAux_sf_cons, if_neg (by decide),
        if_neg (by decide), if_pos (Or.inr rfl), if_pos rfl]
      simp
    · rw [if_neg hs, parseAux_inf_cons, if_neg (by decide), if_pos (Or.inl rfl),
        parseAux_sf_cons, if_neg (by decide), if_neg (by decide),
        if_pos (Or.inr rfl), if_pos rfl]
      simp

theorem row_consume (cells : List String) (hne : cells ≠ []) :
    ∀ (acc : List String) (cs : List Char) (rows : List (List String)),
      ¬(acc = [] ∧ cells = [""]) →
      parseAux .sf ((joinComma (cells.map writeCell)).data ++ '\r' :: '\n' :: cs)
          [] acc rows
        = parseAux .sf cs [] [] (rows ++ [acc ++ cells, []]) := by
  induction cells with
  | nil => exact absurd rfl hne
  | cons c cells ih =>
    intro acc cs rows hx
    cases cells with
    | nil =>
      simp only [List.map_cons, List.map_nil, joinComma]
      apply cell_crlf
      rintro ⟨ha, hc⟩
      exact hx ⟨ha, by rw [hc]⟩
    | cons c2 cs2 =>
      have ih2 := ih (by simp) (acc ++ [c]) cs rows (by simp)
      simp only [List.map_cons, joinComma] at ih2 ⊢
      rw [String.data_append, String.data_append,
        show ("," : String).data = [','] from rfl]
      simp only [List.append_assoc, List.singleton_append, List.cons_append]
      rw [cell_comma]
      simp only [List.nil_append]
      rw [ih2]
      simp

theorem rows_consume (rs : List (List String)) (h : ∀ r ∈ rs, r ≠ []) :
    ∀ rows, parseAux .sf (writeRows rs).data [] [] rows = rows ++ blankSep rs := by
  induction rs with
  | nil =>
    intro rows
    rw [show (writeRows []).data = [] from rfl]
    simp [parseAux, blankSep]
  | cons r rs ih =>
    intro rows
    have h1 := h r (List.mem_cons_self r rs)
    by_cases hsingle : r = [""]
    · subst hsingle
      rw [show writeRows ([""] :: rs) = writeRow [""] ++ writeRows rs from rfl,
        String.data_append,
        show (writeRow [""]).data = ['"', '"', '\r', '\n'] from rfl]
      simp only [List.cons_append, List.nil_append]
      rw [parseAux_sf_cons, if_pos rfl]
      rw [parseAux_q_cons, if_pos rfl]
      rw [parseAux_qq_cons, if_neg (by decide), if_neg (by decide),
        if_pos (Or.inl rfl)]
      rw [parseAux_sf_cons, if_neg (by decide), if_neg (by decide),
        if_pos (Or.inr rfl), if_pos rfl]
      rw [ih (fun x hx => h x (List.mem_cons_of_mem _ hx))]
      rw [show String.mk ([] : List Char) = "" from rfl]
      simp [blankSep]
    · rw [show writeRows (r :: rs) = writeRow r ++ writeRows rs from rfl,
        String.data_append,
        show writeRow r = joinComma (r.map writeCell) ++ "\r\n" from by
          rw [writeRow, if_neg hsingle],
        String.data_append,
        show ("\r\n" : String).data = ['\r', '\n'] from rfl]
      simp only [List.append_assoc, List.cons_append, List.nil_append]
      rw [row_consume r h1 [] _ rows (fun hh => hsingle hh.2)]
      rw [ih (fun x hx => h x (List.mem_cons_of_mem _ hx))]
      simp [blankSep]

theorem csv_roundtrip (rs : List (List String)) (h : ∀ r ∈ rs, r ≠ []) :
    csvParseRaw (writeRows rs) = blankSep rs := by
  simpa [csvParseRaw] using rows_consume rs h []

theorem blankSep_filter (rs : List (List String)) (h : ∀ r ∈ rs, r ≠ []) :
    (blankSep rs).filter (· ≠ []) = rs := by
  induction rs with
  | nil => simp [blankSep]
  | cons r rs ih =>
    have h1 := h r (List.mem_cons_self r rs)
    simp only [blankSep, List.filter_cons]
    rw [if_pos (by simpa using h1), if_neg (by simp)]
    rw [ih (fun x hx => h x (List.mem_cons_of_mem _ hx))]

/-! Lookup lemmas for the association-list dict. -/

theorem dlookup_append_some {a : List (String × Option String)} {k : String}
    {v : Option String} (b : List (String × Option String))
    (h : dlookup a k = some v) : dlookup (a ++ b) k = some v := by
  induction a with
  | nil => simp [dlookup] at h
  | cons p a ih =>
    rw [List.cons_append]
    rw [show dlookup ((p.1, p.2) :: (a ++ b)) k
        = if p.1 = k then some p.2 else dlookup (a ++ b) k from rfl]
    rw [show dlookup ((p.1, p.2) :: a) k
        = if p.1 = k then some p.2 else dlookup a k from rfl] at h
    by_cases hp : p.1 = k
    · rw [if_pos hp] at h ⊢; exact h
    · rw [if_neg hp] at h ⊢; exact ih h

theorem dlookup_append_none {a : List (String × Option String)} {k : String}
    (b : List (String × Option String)) (h : dlookup a k = none) :
    dlookup (a ++ b) k = dlookup b k := by
  induction a with
  | nil => simp
  | cons p a ih =>
    rw [show dlookup ((p.1, p.2) :: a) k
        = if p.1 = k then some p.2 else dlookup a k from rfl] at h
    rw [List.cons_append,
      show dlookup ((p.1, p.2) :: (a ++ b)) k
        = if p.1 = k then some p.2 else dlookup (a ++ b) k from rfl]
    by_cases hp : p.1 = k
    · rw [if_pos hp] at h; exact absurd h (by simp)
    · rw [if_neg hp] at h ⊢; exact ih h

theorem dlookup_eq_none (l : List (String × Option String)) (k : String)
    (h : ∀ p ∈ l, p.1 ≠ k) : dlookup l k = none := by
  induction l with
  | nil => rfl
  | cons p l ih =>
    rw [show dlookup ((p.1, p.2) :: l) k
        = if p.1 = k then some p.2 else dlookup l k from rfl]
    rw [if_neg (h p (List.mem_cons_self p l))]
    exact ih fun x hx => h x (List.mem_cons_of_mem _ hx)

theorem dlookup_mem_of_some {l : List (String × Option String)} {k : String}
    {v : Option String} (h : dlookup l k = some v) : k ∈ l.map Prod.fst := by
  induction l with
  | nil => simp [dlookup] at h
  | cons p l ih =>
    rw [show dlookup ((p.1, p.2) :: l) k
        = if p.1 = k then some p.2 else dlookup l k from rfl] at h
    by_cases hp : p.1 = k
    · simp [hp]
    · rw [if_neg hp] at h
      simp [ih h]

theorem dlookup_constmap (l : List String) (v : Option String) (k : String) :
    dlookup ((l.map fun f => (f, v)).reverse) k
      = if k ∈ l then some v else none := by
  induction l with
  | nil => simp [dlookup]
  | cons a l ih =>
    rw [List.map_cons, List.reverse_cons]
    by_cases hk : k ∈ l
    · rw [dlookup_append_some _ (by rw [ih, if_pos hk]),
        if_pos (List.mem_cons_of_mem _ hk)]
    · rw [dlookup_append_none _ (by rw [ih, if_neg hk])]
      rw [show dlookup [(a, v)] k = if a = k then some v else none from rfl]
      by_cases ha : a = k
      · rw [if_pos ha, if_pos (by rw [ha]; exact List.mem_cons_self k l)]
      · rw [if_neg ha, if_neg (by
          intro hmem
          rcases List.mem_cons.mp hmem with h | h
          · exact ha h.symm
          · exact hk h)]

theorem dlookup_maskDict (pii : List String)
    (d : List (String × Option String)) (k : String) :
    dlookup (maskDict pii d) k
      = if k ∈ pii then some (some "***") else dlookup d k := by
  unfold maskDict
  by_cases hk : k ∈ pii
  · rw [dlookup_append_some _ (by rw [dlookup_constmap, if_pos hk]), if_pos hk]
  · rw [dlookup_append_none _ (by rw [dlookup_constmap, if_neg hk]), if_neg hk]

theorem dlookup_rev_of_nodup_keys (l : List (String × Option String))
    (h : (l.map Prod.fst).Nodup) (k : String) :
    dlookup l.reverse k = dlookup l k := by
  induction l with
  | nil => rfl
  | cons p l ih =>
    rw [List.map_cons, List.nodup_cons] at h
    obtain ⟨hp, hl⟩ := h
    rw [List.reverse_cons,
      show dlookup ((p.1, p.2) :: l) k
        = if p.1 = k then some p.2 else dlookup l k from rfl]
    match hdl : dlookup l k with
    | some v =>
      rw [dlookup_append_some _ (by rw [ih hl, hdl])]
      rw [if_neg (fun e => hp (by rw [e]; exact dlookup_mem_of_some hdl))]
    | none =>
      rw [dlookup_append_none _ (by rw [ih hl, hdl]),
        show dlookup [(p.1, p.2)] k
          = if p.1 = k then some p.2 else none from rfl]

theorem zip_map_fst_sublist (f row : List String) :
    ((f.zip row).map Prod.fst).Sublist f := by
  induction f generalizing row with
  | nil => simp
  | cons a f ih =>
    cases row with
    | nil => simp
    | cons b row =>
      rw [List.zip_cons_cons, List.map_cons]
      exact List.Sublist.cons₂ a (ih row)

theorem dlookup_zipmap (f row : List String) (hnd : f.Nodup) (j : Nat)
    (hjf : j < f.length) (hjr : j < row.length) :
    dlookup ((f.zip row).map fun p => (p.1, some p.2)) (f.get ⟨j, hjf⟩)
      = some (some (row.get ⟨j, hjr⟩)) := by
  induction f generalizing row j with
  | nil => exact absurd hjf (by simp)
  | cons a f ih =>
    cases row with
    | nil => exact absurd hjr (by simp)
    | cons b row =>
      rw [List.nodup_cons] at hnd
      obtain ⟨ha, hnd⟩ := hnd
      cases j with
      | zero =>
        rw [List.zip_cons_cons, List.map_cons,
          show (a :: f).get ⟨0, hjf⟩ = a from rfl,
          show (b :: row).get ⟨0, hjr⟩ = b from rfl,
          show dlookup ((a, some b) :: (f.zip row).map fun p => (p.1, some p.2)) a
            = if a = a then some (some b) else _ from rfl, if_pos rfl]
      | succ j =>
        have hjf2 : j < f.length := Nat.lt_of_succ_lt_succ hjf
        have hjr2 : j < row.length := Nat.lt_of_succ_lt_succ hjr
        rw [List.zip_cons_cons, List.map_cons,
          show (a :: f).get ⟨j + 1, hjf⟩ = f.get ⟨j, hjf2⟩ from rfl,
          show (b :: row).get ⟨j + 1, hjr⟩ = row.get ⟨j, hjr2⟩ from rfl]
        rw [show dlookup ((a, some b) :: (f.zip row).map fun p => (p.1, some p.2))
            (f.get ⟨j, hjf2⟩)
            = if a = f.get ⟨j, hjf2⟩ then some (some b)
              else dlookup ((f.zip row).map fun p => (p.1, some p.2))
                (f.get ⟨j, hjf2⟩) from rfl]
        rw [if_neg (fun e => ha (by rw [e]; exact List.get_mem f j hjf2))]
        exact ih row hnd j hjf2 hjr2

theorem get_mem_drop (f : List String) (j n : Nat) (hj : j < f.length)
    (hn : n ≤ j) : f.get ⟨j, hj⟩ ∈ f.drop n := by
  induction n generalizing f j with
  | zero => rw [List.drop_zero]; exact List.get_mem f j hj
  | succ n ih =>
    cases f with
    | nil => exact absurd hj (by simp)
    | cons a f =>
      cases j with
      | zero => exact absurd hn (by simp)
      | succ j =>
        have hj2 : j < f.length := Nat.lt_of_succ_lt_succ hj
        rw [show (a :: f).get ⟨j + 1, hj⟩ = f.get ⟨j, hj2⟩ from rfl,
          List.drop_succ_cons]
        exact ih f j hj2 (Nat.le_of_succ_le_succ hn)

theorem get_not_mem_drop (f : List String) (hnd : f.Nodup) (j n : Nat)
    (hj : j < f.length) (hjn : j < n) : f.get ⟨j, hj⟩ ∉ f.drop n := by
  induction f generalizing j n with
  | nil => exact absurd hj (by simp)
  | cons a f ih =>
    rw [List.nodup_cons] at hnd
    obtain ⟨ha, hnd⟩ := hnd
    cases n with
    | zero => exact absurd hjn (by simp)
    | succ n =>
      rw [List.drop_succ_cons]
      cases j with
      | zero =>
        rw [show (a :: f).get ⟨0, hj⟩ = a from rfl]
        exact fun hmem => ha (List.drop_subset n f hmem)
      | succ j =>
        have hj2 : j < f.length := Nat.lt_of_succ_lt_succ hj
        rw [show (a :: f).get ⟨j + 1, hj⟩ = f.get ⟨j, hj2⟩ from rfl]
        exact ih hnd j n hj2 (Nat.lt_of_succ_lt_succ hjn)

theorem dlookup_buildDict (f row : List String) (hnd : f.Nodup) (j : Nat)
    (hj : j < f.length) :
    dlookup (buildDict f row) (f.get ⟨j, hj⟩)
      = if h : j < row.length then some (some (row.get ⟨j, h⟩))
        else some none := by
  unfold buildDict
  by_cases hr : j < row.length
  · rw [dif_pos hr]
    have hdrop : dlookup
        (((f.drop row.length).map fun k => (k, (none : Option String))).reverse)
        (f.get ⟨j, hj⟩) = none := by
      rw [dlookup_constmap,
        if_neg (get_not_mem_drop f hnd j row.length hj hr)]
    rw [dlookup_append_none _ hdrop]
    have hkeys : (((f.zip row).map fun p => (p.1, some p.2)).map Prod.fst).Nodup := by
      have : ((f.zip row).map fun p => (p.1, some p.2)).map Prod.fst
          = (f.zip row).map Prod.fst := by
        rw [List.map_map]; rfl
      rw [this]
      exact (zip_map_fst_sublist f row).nodup hnd
    rw [dlookup_rev_of_nodup_keys _ hkeys]
    exact dlookup_zipmap f row hnd j hj hr
  · rw [dif_neg hr]
    have hmem : f.get ⟨j, hj⟩ ∈ f.drop row.length :=
      get_mem_drop f j row.length hj (Nat.le_of_not_lt hr)
    exact dlookup_append_some _ (by rw [dlookup_constmap, if_pos hmem])

theorem writtenCell_pii (f pii row : List String) (name : String)
    (h : name ∈ pii) : writtenCell f pii row name = "***" := by
  unfold writtenCell
  rw [dlookup_maskDict, if_pos h]

theorem writtenCell_nonpii (f pii row : List String) (hnd : f.Nodup) (j : Nat)
    (hj : j < f.length) (h : f.get ⟨j, hj⟩ ∉ pii) :
    writtenCell f pii row (f.get ⟨j, hj⟩) = row.getD j "" := by
  unfold writtenCell
  rw [dlookup_maskDict, if_neg h, dlookup_buildDict f row hnd j hj]
  by_cases hr : j < row.length
  · rw [dif_pos hr, List.getD_eq_getElem row "" hr]
    rfl
  · rw [dif_neg hr, List.getD_eq_default row "" (Nat.le_of_not_lt hr)]

theorem writtenCell_nonpii_elem (f pii row : List String) (hnd : f.Nodup)
    (j : Nat) (hj : j < f.length) (h : f[j] ∉ pii) :
    writtenCell f pii row (f[j]) = row.getD j "" :=
  writtenCell_nonpii f pii row hnd j hj h

/-! Characterization of the masking pipeline. -/

theorem maskRow_of_le {f pii row : List String} (h : row.length ≤ f.length) :
    maskRow f pii row = .ok (f.map (writtenCell f pii row)) := by
  unfold maskRow
  rw [if_neg (Nat.not_lt.mpr h)]

theorem maskRow_ok_char {f pii row m : List String}
    (h : maskRow f pii row = .ok m) :
    row.length ≤ f.length ∧ m = f.map (writtenCell f pii row) := by
  unfold maskRow at h
  by_cases hlen : f.length < row.length
  · rw [if_pos hlen] at h
    exact absurd h (by simp)
  · rw [if_neg hlen] at h
    refine ⟨Nat.le_of_not_lt hlen, ?_⟩
    injection h with h2
    exact h2.symm

theorem maskRows_of_le (f pii : List String) :
    ∀ rows, (∀ r ∈ rows, r.length ≤ f.length) →
      maskRows f pii rows
        = .ok (rows.map fun r => f.map (writtenCell f pii r)) := by
  intro rows
  induction rows with
  | nil => intro; rfl
  | cons r rows ih =>
    intro h
    simp only [maskRows, List.map_cons]
    rw [maskRow_of_le (h r (List.mem_cons_self r rows)),
      ih (fun x hx => h x (List.mem_cons_of_mem _ hx))]

theorem maskRows_ok_char {f pii : List String} :
    ∀ {rows ms : List (List String)}, maskRows f pii rows = .ok ms →
      (∀ r ∈ rows, r.length ≤ f.length)
        ∧ ms = rows.map fun r => f.map (writtenCell f pii r) := by
  intro rows
  induction rows with
  | nil =>
    intro ms h
    simp only [maskRows] at h
    injection h with h2
    exact ⟨by simp, h2.symm⟩
  | cons r rows ih =>
    intro ms h
    simp only [maskRows] at h
    cases hmr : maskRow f pii r with
    | error e => rw [hmr] at h; simp at h
    | ok m =>
      rw [hmr] at h
      cases hms : maskRows f pii rows with
      | error e => rw [hms] at h; simp at h
      | ok ms2 =>
        rw [hms] at h
        simp only [] at h
        obtain ⟨hle, hm⟩ := maskRow_ok_char hmr
        obtain ⟨hles, hms2⟩ := ih hms
        have hms' : ms = m :: ms2 := by
          cases h; rfl
        refine ⟨?_, ?_⟩
        · intro x hx
          rcases List.mem_cons.mp hx with hx | hx
          · rw [hx]; exact hle
          · exact hles x hx
        · rw [hms', hm, hms2, List.map_cons]

theorem processCsv_eq (c : String) (pii f : List String)
    (rest : List (List String)) (hparse : csvParseRaw c = f :: rest)
    (hf : f ≠ []) (hval : pii.find? (fun x => !(f.contains x)) = none)
    (hlen : ∀ r ∈ rest.filter (· ≠ []), r.length ≤ f.length) :
    processCsv c pii
      = .ok (writeRows (f :: (rest.filter (· ≠ [])).map fun r =>
          f.map (writtenCell f pii r))) := by
  simp only [processCsv, hparse]
  rw [if_neg hf, hval, maskRows_of_le f pii _ hlen]
  rfl

theorem processCsv_ok_inv {c : String} {pii : List String} {out : String}
    (h : processCsv c pii = .ok out) :
    ∃ f rest, csvParseRaw c = f :: rest ∧ f ≠ []
      ∧ pii.find? (fun x => !(f.contains x)) = none
      ∧ (∀ r ∈ rest.filter (· ≠ []), r.length ≤ f.length)
      ∧ out = writeRows (f :: (rest.filter (· ≠ [])).map fun r =>
          f.map (writtenCell f pii r)) := by
  unfold processCsv at h
  cases hparse : csvParseRaw c with
  | nil => rw [hparse] at h; simp at h
  | cons f rest =>
    rw [hparse] at h
    simp only [] at h
    by_cases hf : f = []
    · rw [if_pos hf] at h; simp at h
    · rw [if_neg hf] at h
      cases hval : pii.find? (fun x => !(f.contains x)) with
      | some x => rw [hval] at h; simp at h
      | none =>
        rw [hval] at h
        cases hmask : maskRows f pii (rest.filter (· ≠ [])) with
        | error e => rw [hmask] at h; simp at h
        | ok ms =>
          rw [hmask] at h
          simp only [] at h
          obtain ⟨hle, hms⟩ := maskRows_ok_char hmask
          refine ⟨f, rest, rfl, hf, hval, hle, ?_⟩
          have : out = writeRow f ++ writeRows ms := by cases h; rfl
          rw [this, hms]
          rfl

theorem obfuscate_pii_ok_inv {store : Store} {pf : String → String → Bool}
    {input : InputData} {out : String} {tr : List S3Op}
    (h : obfuscate_pii store pf input = (.ok out, tr)) :
    ∃ path pii bucket key content,
      input.file_to_obfuscate = some path
        ∧ input.pii_fields = some (.strs pii)
        ∧ splitFirstSlash (strDrop path 5) = some (bucket, key)
        ∧ store.objects bucket key = some content
        ∧ processCsv content pii = .ok out := by
  rcases input with ⟨fo, pspec, ol⟩
  cases fo with
  | none => exact absurd h (by simp [obfuscate_pii])
  | some path =>
  cases pspec with
  | none => exact absurd h (by simp [obfuscate_pii])
  | some ps =>
  cases ps with
  | nonList => exact absurd h (by simp [obfuscate_pii])
  | strs pii =>
  simp only [obfuscate_pii] at h
  by_cases hsw : strStartsWith path "s3://"
  · rw [if_neg (not_not_intro hsw)] at h
    cases hsp : splitFirstSlash (strDrop path 5) with
    | none => rw [hsp] at h; simp at h
    | some bk =>
      obtain ⟨bucket, key⟩ := bk
      rw [hsp] at h
      simp only [] at h
      by_cases htrav : (hasSubstr ".." key || strStartsWith key "/" : Bool)
      · rw [if_pos htrav] at h; simp at h
      · rw [if_neg htrav] at h
        by_cases hkey : key = ""
        · rw [if_pos hkey] at h; simp at h
        · rw [if_neg hkey] at h
          cases hobj : store.objects bucket key with
        | none => rw [hobj] at h; simp at h
        | some content =>
          rw [hobj] at h
          simp only [] at h
          cases hproc : processCsv content pii with
          | error e => rw [hproc] at h; simp at h
          | ok result =>
            rw [hproc] at h
            simp only [] at h
            refine ⟨path, pii, bucket, key, content, rfl, rfl, hsp, hobj, ?_⟩
            rw [hproc]
            cases ol with
            | none =>
              simp only [Prod.mk.injEq, Except.ok.injEq] at h
              rw [h.1]
            | some oloc =>
              simp only [] at h
              by_cases holoc : oloc ≠ "" ∧ strStartsWith oloc "s3://"
              · rw [if_pos holoc] at h
                cases hosp : splitFirstSlash (strDrop oloc 5) with
                | none => rw [hosp] at h; simp at h
                | some obk =>
                  obtain ⟨ob, okey⟩ := obk
                  rw [hosp] at h
                  simp only [] at h
                  by_cases hok : okey = ""
                  · rw [if_pos hok] at h; simp at h
                  · rw [if_neg hok] at h
                    by_cases hpf : pf ob okey
                    · rw [if_pos hpf] at h
                      simp only [Prod.mk.injEq, Except.ok.injEq] at h
                      rw [h.1]
                    · rw [if_neg hpf] at h
                      simp only [Prod.mk.injEq, Except.ok.injEq] at h
                      rw [h.1]
              · rw [if_neg holoc] at h
                simp only [Prod.mk.injEq, Except.ok.injEq] at h
                rw [h.1]
  · rw [if_pos hsw] at h
    simp at h

/-! Helper lemmas about `getD` on mapped lists. -/

theorem getD_map_lt {α β : Type} (g : α → β) (l : List α) (i : Nat)
    (hi : i < l.length) (d : β) (d2 : α) :
    (l.map g).getD i d = g (l.getD i d2) := by
  rw [List.getD_eq_getElem l d2 hi,
    List.getD_eq_getElem (l.map g) d (by simpa using hi), List.getElem_map]

theorem find?_none_mem {p : String → Bool} {l : List String} {x : String}
    (h : l.find? p = none) (hx : x ∈ l) : p x = false := by
  rw [List.find?_eq_none] at h
  exact Bool.eq_false_iff.mpr (h x hx)

/-- C1: for every request that `obfuscate_pii` accepts (the run returns a
payload), the payload is exactly the serialized header followed by the
serialized masked records — one per data record of the fetched object, so in
particular none for a header-only object — and in every masked record every
position whose header name is one of the PII fields carries the sentinel
`***`.  The PII fields were all validated against the header. -/
theorem C1_mask_totality {store : Store} {pf : String → String → Bool}
    {input : InputData} {out : String} {tr : List S3Op} {pii : List String}
    (hpii : input.pii_fields = some (.strs pii))
    (h : obfuscate_pii store pf input = (.ok out, tr)) :
    ∃ fieldnames masked,
      out = writeRows (fieldnames :: masked)
        ∧ (∀ x ∈ pii, x ∈ fieldnames)
        ∧ ∀ m ∈ masked,
            m.length = fieldnames.length
              ∧ ∀ j, j < fieldnames.length → fieldnames.getD j "" ∈ pii →
                  m.getD j "" = "***" := by
  obtain ⟨path, pii2, bucket, key, content, hfo, hpii2, hsp, hobj, hproc⟩ :=
    obfuscate_pii_ok_inv h
  rw [hpii] at hpii2
  have hpe : pii2 = pii := by
    injection hpii2 with h2
    injection h2 with h3
    exact h3.symm
  rw [hpe] at hproc
  obtain ⟨f, rest, hparse, hf, hval, hle, hout⟩ := processCsv_ok_inv hproc
  refine ⟨f, _, hout, ?_, ?_⟩
  · intro x hx
    have := find?_none_mem hval hx
    simpa using this
  · intro m hm
    obtain ⟨r, _, hr⟩ := List.mem_map.mp hm
    constructor
    · rw [← hr, List.length_map]
    · intro j hj hmem
      rw [← hr, getD_map_lt (writtenCell f pii r) f j hj "" ""]
      rw [List.getD_eq_getElem f "" hj] at hmem ⊢
      exact writtenCell_pii f pii r _ hmem

theorem C1_mask_totality_witness :
    ∃ fieldnames masked,
      "id,name\r\n1,***\r\n" = writeRows (fieldnames :: masked)
        ∧ (∀ x ∈ ["name"], x ∈ fieldnames)
        ∧ ∀ m ∈ masked,
            m.length = fieldnames.length
              ∧ ∀ j, j < fieldnames.length → fieldnames.getD j "" ∈ ["name"] →
                  m.getD j "" = "***" :=
  @C1_mask_totality (store1 "b" "k.csv" "id,name\n1,John\n") (fun _ _ => false)
    ⟨some "s3://b/k.csv", some (.strs ["name"]), none⟩ "id,name\r\n1,***\r\n"
    [.get "b" "k.csv"] ["name"] rfl (by decide)


/-- C2 counterexample: the claim demands byte-identity of non-target columns.
Take a source object whose `id` cell is written with (redundant but legal)
quoting: `id,name CRLF "1",John CRLF`, and mask only `name`.  The run
succeeds, but `csv.DictWriter` re-serializes the untouched `id` cell with
minimal quoting, so the output is `id,name CRLF 1,*** CRLF`: the byte
sequence `"1"` that made up the `id` column of the data row occurs nowhere
in the output (no line-ending normalization can restore it), so the
non-target column is not byte-identical.  The pandas engine breaks byte
identity on such inputs too, via dtype inference. -/
theorem C2_counterexample :
    (obfuscate_pii (store1 "b" "in.csv" "id,name\r\n\"1\",John\r\n")
        (fun _ _ => false)
        ⟨some "s3://b/in.csv", some (.strs ["name"]), none⟩).1
      = .ok "id,name\r\n1,***\r\n"
    ∧ hasSubstr "\"1\"" "id,name\r\n\"1\",John\r\n" = true
    ∧ hasSubstr "\"1\"" "id,name\r\n1,***\r\n" = false := by decide

/-- C2 amended: for the `csv.DictWriter` engine the guarantee that holds is
value identity, not byte identity: whenever `obfuscate_pii` succeeds on a
table with distinct header names, the parsed output has the same cell values
as the parsed input in every column whose name is not a PII field; record
counts agree and the header is preserved.  Byte identity additionally needs
the input to be in the writer's canonical form. -/
theorem C2_value_identity {store : Store} {pf : String → String → Bool}
    {input : InputData} {out path bucket key content : String}
    {tr : List S3Op} {pii f : List String} {rest : List (List String)}
    (hpii : input.pii_fields = some (.strs pii))
    (hfo : input.file_to_obfuscate = some path)
    (hsp : splitFirstSlash (strDrop path 5) = some (bucket, key))
    (hobj : store.objects bucket key = some content)
    (hparse : csvParseRaw content = f :: rest)
    (hnd : f.Nodup)
    (h : obfuscate_pii store pf input = (.ok out, tr)) :
    (csvParseRaw out).head? = some f
      ∧ (((csvParseRaw out).drop 1).filter (· ≠ [])).length
          = (rest.filter (· ≠ [])).length
      ∧ ∀ i j, i < (rest.filter (· ≠ [])).length → j < f.length →
          f.getD j "" ∉ pii →
          ((((csvParseRaw out).drop 1).filter (· ≠ [])).getD i []).getD j ""
            = ((rest.filter (· ≠ [])).getD i []).getD j "" := by
  obtain ⟨path2, pii2, bucket2, key2, content2, hfo2, hpii2, hsp2, hobj2,
    hproc⟩ := obfuscate_pii_ok_inv h
  rw [hfo] at hfo2
  injection hfo2 with hpath
  rw [← hpath] at hsp2
  rw [hsp] at hsp2
  injection hsp2 with hbk
  injection hbk with hb hk
  rw [← hb, ← hk] at hobj2
  rw [hobj] at hobj2
  injection hobj2 with hcontent
  rw [hpii] at hpii2
  have hpe : pii2 = pii := by
    injection hpii2 with h2
    injection h2 with h3
    exact h3.symm
  rw [hpe, ← hcontent] at hproc
  obtain ⟨f2, rest2, hparse2, hf2, _hval2, _hle2, hout⟩ :=
    processCsv_ok_inv hproc
  rw [hparse] at hparse2
  injection hparse2 with hfe hreste
  rw [← hfe, ← hreste] at hout
  rw [← hfe] at hf2
  have hfpos : 0 < f.length := List.length_pos.mpr hf2
  have hmlen : ∀ m ∈ (rest.filter (· ≠ [])).map fun r =>
      f.map (writtenCell f pii r), m.length = f.length := by
    intro m hm
    obtain ⟨r, _, hr⟩ := List.mem_map.mp hm
    rw [← hr, List.length_map]
  have hne : ∀ m ∈ (rest.filter (· ≠ [])).map fun r =>
      f.map (writtenCell f pii r), m ≠ [] := by
    intro m hm he
    have hl := hmlen m hm
    rw [he] at hl
    simp at hl
    omega
  have hwf : ∀ r ∈ f :: ((rest.filter (· ≠ [])).map fun r =>
      f.map (writtenCell f pii r)), r ≠ [] := by
    intro r hr
    rcases List.mem_cons.mp hr with hr | hr
    · subst hr; exact hf2
    · exact hne r hr
  have hparseout : csvParseRaw out
      = blankSep (f :: ((rest.filter (· ≠ [])).map fun r =>
          f.map (writtenCell f pii r))) := by
    rw [hout]
    exact csv_roundtrip _ hwf
  have hdata : ((csvParseRaw out).drop 1).filter (· ≠ [])
      = (rest.filter (· ≠ [])).map fun r => f.map (writtenCell f pii r) := by
    rw [hparseout]
    rw [show blankSep (f :: ((rest.filter (· ≠ [])).map fun r =>
        f.map (writtenCell f pii r)))
        = f :: [] :: blankSep ((rest.filter (· ≠ [])).map fun r =>
            f.map (writtenCell f pii r)) from rfl]
    rw [List.drop_one, List.tail_cons, List.filter_cons, if_neg (by simp)]
    exact blankSep_filter _ hne
  refine ⟨?_, ?_, ?_⟩
  · rw [hparseout]
    rfl
  · rw [hdata, List.length_map]
  · intro i j hi hj hnp
    rw [hdata,
      getD_map_lt (fun r => f.map (writtenCell f pii r))
        (rest.filter (· ≠ [])) i hi [] [],
      getD_map_lt (writtenCell f pii ((rest.filter (· ≠ [])).getD i []))
        f j hj "" ""]
    rw [List.getD_eq_getElem f "" hj] at hnp ⊢
    exact writtenCell_nonpii f pii _ hnd j hj hnp

theorem C2_value_identity_witness :
    (csvParseRaw "id,name\r\n1,***\r\n").head? = some ["id", "name"]
      ∧ (((csvParseRaw "id,name\r\n1,***\r\n").drop 1).filter (· ≠ [])).length
          = (([["1", "John"]] : List (List String)).filter (· ≠ [])).length
      ∧ ∀ i j, i < (([["1", "John"]] : List (List String)).filter
            (· ≠ [])).length →
          j < (["id", "name"] : List String).length →
          (["id", "name"] : List String).getD j "" ∉ (["name"] : List String) →
          ((((csvParseRaw "id,name\r\n1,***\r\n").drop 1).filter
              (· ≠ [])).getD i []).getD j ""
            = ((([["1", "John"]] : List (List String)).filter
                (· ≠ [])).getD i []).getD j "" :=
  @C2_value_identity (store1 "b" "in.csv" "id,name\n1,John\n")
    (fun _ _ => false)
    ⟨some "s3://b/in.csv", some (.strs ["name"]), none⟩
    "id,name\r\n1,***\r\n" "s3://b/in.csv" "b" "in.csv" "id,name\n1,John\n"
    [.get "b" "in.csv"] ["name"] ["id", "name"] [["1", "John"]]
    rfl rfl (by decide) rfl (by decide) (by decide) (by decide)

/-- C3: if the request reaches field validation (source fetched, header
present) and some PII field is missing from the header, `obfuscate_pii`
fails with the unknown-field `ValueError` naming the first missing field (in
`pii_fields` order, by `find?`), and no output is produced: the result is an
error and the trace contains no put, whatever `output_location` was.  (The
key is non-empty, else boto3 parameter validation fires before the fetch.) -/
theorem C3_unknown_field (store : Store) (pf : String → String → Bool)
    (path bucket key content m : String) (pii f : List String)
    (rest : List (List String)) (ol : Option String)
    (hsw : strStartsWith path "s3://" = true)
    (hsp : splitFirstSlash (strDrop path 5) = some (bucket, key))
    (htrav : (hasSubstr ".." key || strStartsWith key "/") = false)
    (hkey : key ≠ "")
    (hobj : store.objects bucket key = some content)
    (hparse : csvParseRaw content = f :: rest)
    (hf : f ≠ [])
    (hmiss : pii.find? (fun x => !(f.contains x)) = some m) :
    obfuscate_pii store pf ⟨some path, some (.strs pii), ol⟩
      = (.error (.valueError ("PII field " ++ m ++ " not found in CSV headers")),
          [.get bucket key])
      ∧ m ∈ pii ∧ m ∉ f := by
  have hpc : processCsv content pii
      = .error ("PII field " ++ m ++ " not found in CSV headers") := by
    simp only [processCsv, hparse]
    rw [if_neg hf, hmiss]
  refine ⟨?_, List.mem_of_find?_eq_some hmiss, ?_⟩
  · simp only [obfuscate_pii]
    rw [if_neg (not_not_intro hsw), hsp]
    simp only []
    rw [if_neg (by simp [htrav]), if_neg hkey, hobj]
    simp only []
    rw [hpc]
  · have := List.find?_some hmiss
    simp at this
    simpa using this

theorem C3_unknown_field_witness :
    obfuscate_pii (store1 "b" "k.csv" "id,name\n1,J\n") (fun _ _ => false)
      ⟨some "s3://b/k.csv", some (.strs ["ssn"]), some "s3://b/out.csv"⟩
      = (.error (.valueError "PII field ssn not found in CSV headers"),
          [.get "b" "k.csv"])
    ∧ "ssn" ∈ (["ssn"] : List String)
    ∧ "ssn" ∉ (["id", "name"] : List String) :=
  C3_unknown_field (store1 "b" "k.csv" "id,name\n1,J\n") (fun _ _ => false)
    "s3://b/k.csv" "b" "k.csv" "id,name\n1,J\n" "ssn" ["ssn"] ["id", "name"]
    [["1", "J"]] (some "s3://b/out.csv") (by decide) (by decide) (by decide)
    (by decide) rfl (by decide) (by decide) (by decide)

/-- C4 amended: the traversal guard holds for the source key only: a source
key containing `..` or starting with `/` is rejected with the
path-traversal error before any store operation (empty trace), for every
store, every field list and every destination.  The destination key is not
guarded (see the counterexample). -/
theorem C4_source_traversal_guard (store : Store) (pf : String → String → Bool)
    (path bucket key : String) (pii : List String) (ol : Option String)
    (hsw : strStartsWith path "s3://" = true)
    (hsp : splitFirstSlash (strDrop path 5) = some (bucket, key))
    (hbad : (hasSubstr ".." key || strStartsWith key "/") = true) :
    obfuscate_pii store pf ⟨some path, some (.strs pii), ol⟩
      = (.error (.valueError "Invalid S3 key: potential path traversal detected"),
          []) := by
  simp only [obfuscate_pii]
  rw [if_neg (not_not_intro hsw), hsp]
  simp only []
  rw [if_pos hbad]

theorem C4_source_traversal_guard_witness :
    obfuscate_pii (store1 "b" "secret.csv" "id,name\n1,J\n")
      (fun _ _ => false)
      ⟨some "s3://b/../secret.csv", some (.strs ["name"]), none⟩
      = (.error (.valueError "Invalid S3 key: potential path traversal detected"),
          []) :=
  C4_source_traversal_guard (store1 "b" "secret.csv" "id,name\n1,J\n")
    (fun _ _ => false) "s3://b/../secret.csv" "b" "../secret.csv" ["name"]
    none (by decide) (by decide) (by decide)

/-- C4 counterexample: a destination key containing a parent-directory
segment is not rejected: the run succeeds and a put to that very key is
attempted (it appears in the trace), so the claim's "source or destination
key ... rejected before any store operation" fails on the destination half. -/
theorem C4_counterexample :
    obfuscate_pii (store1 "b" "in.csv" "id,name\n1,J\n") (fun _ _ => false)
      ⟨some "s3://b/in.csv", some (.strs ["name"]), some "s3://b/../evil.csv"⟩
      = (.ok "id,name\r\n1,***\r\n",
          [.get "b" "in.csv", .put "b" "../evil.csv" "id,name\r\n1,***\r\n"])
    ∧ hasSubstr ".." "../evil.csv" = true := by decide

/-- C5 amended: both degenerate source URIs fail before any store access
(empty trace), but neither with a typed `InvalidRequest`: a URI with no
separator after the bucket raises the uncaught tuple-unpacking `ValueError`,
and a URI whose key is empty (`s3://bucket/`) passes the traversal guard and
then trips boto3 client-side parameter validation at `get_object` — an
uncaught `ParamValidationError`, which is an untyped failure for this API
(in `lambda_function` it surfaces as 500, not 400). -/
theorem C5_empty_key_behaviour :
    (∀ (store : Store) (pf : String → String → Bool) (path : String)
        (pii : List String) (ol : Option String),
      strStartsWith path "s3://" = true →
      splitFirstSlash (strDrop path 5) = none →
      obfuscate_pii store pf ⟨some path, some (.strs pii), ol⟩
        = (.error (.valueError "not enough values to unpack (expected 2, got 1)"),
            []))
    ∧ (∀ (store : Store) (pf : String → String → Bool) (path bucket : String)
        (pii : List String) (ol : Option String),
      strStartsWith path "s3://" = true →
      splitFirstSlash (strDrop path 5) = some (bucket, "") →
      obfuscate_pii store pf ⟨some path, some (.strs pii), ol⟩
        = (.error (.paramValidationError keyLenMsg), [])) := by
  constructor
  · intro store pf path pii ol hsw hsp
    simp only [obfuscate_pii]
    rw [if_neg (not_not_intro hsw), hsp]
  · intro store pf path bucket pii ol hsw hsp
    simp only [obfuscate_pii]
    rw [if_neg (not_not_intro hsw), hsp]
    simp only []
    rw [if_neg (by simp [hasSubstr, hasInfixChars, strStartsWith])]
    simp

theorem C5_empty_key_behaviour_witness :
    obfuscate_pii ⟨fun _ _ => none⟩ (fun _ _ => false)
      ⟨some "s3://bucketonly", some (.strs ["name"]), none⟩
      = (.error (.valueError "not enough values to unpack (expected 2, got 1)"),
          [])
    ∧ obfuscate_pii ⟨fun _ _ => none⟩ (fun _ _ => false)
      ⟨some "s3://b/", some (.strs ["name"]), none⟩
      = (.error (.paramValidationError keyLenMsg), []) :=
  ⟨C5_empty_key_behaviour.1 ⟨fun _ _ => none⟩ (fun _ _ => false) "s3://bucketonly"
      ["name"] none (by decide) (by decide),
   C5_empty_key_behaviour.2 ⟨fun _ _ => none⟩ (fun _ _ => false) "s3://b/" "b"
      ["name"] none (by decide) (by decide)⟩

/-- C5 counterexample: for the empty-key source URI `s3://bkt/` the claim
requires a typed invalid-request `ValueError` rather than an untyped
failure; instead the run escapes with botocore's client-side
`ParamValidationError` — no `ValueError` is raised (and no fetch occurs:
validation fires inside the client call, before any store access). -/
theorem C5_counterexample :
    obfuscate_pii (store1 "bkt" "data.csv" "id,name\n1,J\n")
      (fun _ _ => false)
      ⟨some "s3://bkt/", some (.strs ["name"]), none⟩
      = (.error (.paramValidationError keyLenMsg), []) := by decide

/-- C6 amended: a missing `pii_fields` key and a non-list `pii_fields` value
are rejected by `obfuscate_pii` before any store access, and the
`lambda_function` handler rejects an empty list with a 400 response; but
`obfuscate_pii` itself accepts an empty list (see the counterexample). -/
theorem C6_required_fields :
    (∀ (store : Store) (pf : String → String → Bool) (fo : Option String)
        (ol : Option String),
      obfuscate_pii store pf ⟨fo, none, ol⟩
        = (.error (.valueError "Missing required keys in input JSON"), []))
    ∧ (∀ (store : Store) (pf : String → String → Bool) (path : String)
        (ol : Option String),
      obfuscate_pii store pf ⟨some path, some .nonList, ol⟩
        = (.error (.valueError "pii_fields must be a list"), []))
    ∧ (∀ (store : Store) (pf : String → String → Bool) (env : Option String)
        (fo : Option String) (rec : Option (String × String))
        (op : Option String),
      lambda_handler store pf env ⟨some (.strs []), fo, rec, op⟩
        = ⟨400, "PII fields must be a non-empty list"⟩) := by
  refine ⟨?_, ?_, ?_⟩
  · intro store pf fo ol
    cases fo <;> rfl
  · intro store pf path ol
    rfl
  · intro store pf env fo rec op
    rfl

/-- C6 counterexample: an empty `pii_fields` list passes `obfuscate_pii`'s
request validation: the run fetches the object, performs the whole transform
with nothing to mask, and returns the (unmasked) payload instead of failing
with an invalid-request error. -/
theorem C6_counterexample :
    obfuscate_pii (store1 "b" "k.csv" "id,name\n1,J\n") (fun _ _ => false)
      ⟨some "s3://b/k.csv", some (.strs []), none⟩
      = (.ok "id,name\r\n1,J\r\n", [.get "b" "k.csv"]) := by decide

/-- C7 amended: a header-only input (all PII fields present in the header)
succeeds with a header-only output under `obfuscate_pii`, but the pandas
engine `GDPRObfuscator.obfuscate_csv` rejects exactly that input: a frame
with zero data rows trips `validate_input`'s `df.empty` check. -/
theorem C7_header_only (store : Store) (pf : String → String → Bool)
    (path bucket key content : String) (pii f : List String)
    (rest : List (List String))
    (hsw : strStartsWith path "s3://" = true)
    (hsp : splitFirstSlash (strDrop path 5) = some (bucket, key))
    (htrav : (hasSubstr ".." key || strStartsWith key "/") = false)
    (hkey : key ≠ "")
    (hobj : store.objects bucket key = some content)
    (hparse : csvParseRaw content = f :: rest)
    (hf : f ≠ [])
    (hempty : rest.filter (· ≠ []) = [])
    (hval : pii.find? (fun x => !(f.contains x)) = none) :
    obfuscate_pii store pf ⟨some path, some (.strs pii), none⟩
      = (.ok (writeRow f), [.get bucket key])
    ∧ obfuscate_csv content pii = .error "Input DataFrame is empty" := by
  constructor
  · have hpc : processCsv content pii = .ok (writeRow f) := by
      rw [processCsv_eq content pii f rest hparse hf hval
        (by rw [hempty]; intro r hr; simp at hr), hempty, List.map_nil]
      rw [show writeRows [f] = writeRow f ++ writeRows [] from rfl]
      rw [show writeRows ([] : List (List String)) = "" from rfl]
      rw [String.append_empty]
    simp only [obfuscate_pii]
    rw [if_neg (not_not_intro hsw), hsp]
    simp only []
    rw [if_neg (by simp [htrav]), if_neg hkey, hobj]
    simp only []
    rw [hpc]
  · simp only [obfuscate_csv, hparse, List.filter_cons]
    rw [if_pos (by simpa using hf), hempty]
    rfl

theorem C7_header_only_witness :
    obfuscate_pii (store1 "b" "k.csv" "id,name\n") (fun _ _ => false)
      ⟨some "s3://b/k.csv", some (.strs ["name"]), none⟩
      = (.ok (writeRow ["id", "name"]), [.get "b" "k.csv"])
    ∧ obfuscate_csv "id,name\n" ["name"]
        = .error "Input DataFrame is empty" :=
  C7_header_only (store1 "b" "k.csv" "id,name\n") (fun _ _ => false)
    "s3://b/k.csv" "b" "k.csv" "id,name\n" ["name"] ["id", "name"] []
    (by decide) (by decide) (by decide) (by decide) rfl (by decide) (by decide)
    rfl (by decide)

/-- C7 counterexample: the claim says the header-only run succeeds for both
engines; the pandas engine rejects it. -/
theorem C7_counterexample :
    obfuscate_csv "id,name\n" ["name"]
      = .error "Input DataFrame is empty" := by decide

/-- C8 amended: when the transform succeeds and the supplied destination has
the scheme, a key separator, and a non-empty key, the put is attempted and
the masked payload is returned whatever the outcome of the put — the first
conjunct holds for every `putFails`, which is the modelled
`ClientError`-swallowing of lines 125-126.  That swallowing does not extend
to other failures inside the block: a destination with an empty key
(`s3://bucket/`) makes `put_object` raise the client-side
`ParamValidationError` — inside the `try` but outside `except ClientError` —
and the payload is lost (second conjunct); a destination with no key
separator raises the uncaught unpacking `ValueError` (see the
counterexample); a destination without the scheme is silently skipped. -/
theorem C8_put_failure_swallowed (store : Store)
    (path bucket key content res ol ob okey : String) (pii : List String)
    (hsw : strStartsWith path "s3://" = true)
    (hsp : splitFirstSlash (strDrop path 5) = some (bucket, key))
    (htrav : (hasSubstr ".." key || strStartsWith key "/") = false)
    (hkey : key ≠ "")
    (hobj : store.objects bucket key = some content)
    (hproc : processCsv content pii = .ok res)
    (holne : ol ≠ "")
    (holsw : strStartsWith ol "s3://" = true)
    (holsp : splitFirstSlash (strDrop ol 5) = some (ob, okey)) :
    (okey ≠ "" → ∀ pf,
      obfuscate_pii store pf ⟨some path, some (.strs pii), some ol⟩
        = (.ok res, [.get bucket key, .put ob okey res]))
    ∧ (okey = "" → ∀ pf,
      obfuscate_pii store pf ⟨some path, some (.strs pii), some ol⟩
        = (.error (.paramValidationError keyLenMsg), [.get bucket key])) := by
  constructor
  · intro hok pf
    simp only [obfuscate_pii]
    rw [if_neg (not_not_intro hsw), hsp]
    simp only []
    rw [if_neg (by simp [htrav]), if_neg hkey, hobj]
    simp only []
    rw [hproc]
    simp only []
    rw [if_pos ⟨holne, holsw⟩, holsp]
    simp only []
    rw [if_neg hok]
    by_cases hpf : pf ob okey
    · rw [if_pos hpf]
    · rw [if_neg hpf]
  · intro hok pf
    simp only [obfuscate_pii]
    rw [if_neg (not_not_intro hsw), hsp]
    simp only []
    rw [if_neg (by simp [htrav]), if_neg hkey, hobj]
    simp only []
    rw [hproc]
    simp only []
    rw [if_pos ⟨holne, holsw⟩, holsp]
    simp only []
    rw [if_pos hok]

theorem C8_put_failure_swallowed_witness :
    obfuscate_pii (store1 "b" "k.csv" "id,name\n1,J\n")
      (fun _ _ => true)
      ⟨some "s3://b/k.csv", some (.strs ["name"]), some "s3://out/dest.csv"⟩
      = (.ok "id,name\r\n1,***\r\n",
          [.get "b" "k.csv", .put "out" "dest.csv" "id,name\r\n1,***\r\n"])
    ∧ obfuscate_pii (store1 "b" "k.csv" "id,name\n1,J\n")
      (fun _ _ => false)
      ⟨some "s3://b/k.csv", some (.strs ["name"]), some "s3://out/"⟩
      = (.error (.paramValidationError keyLenMsg), [.get "b" "k.csv"]) :=
  ⟨(C8_put_failure_swallowed (store1 "b" "k.csv" "id,name\n1,J\n")
      "s3://b/k.csv" "b" "k.csv" "id,name\n1,J\n" "id,name\r\n1,***\r\n"
      "s3://out/dest.csv" "out" "dest.csv" ["name"] (by decide) (by decide)
      (by decide) (by decide) rfl (by decide) (by decide) (by decide)
      (by decide)).1 (by decide) (fun _ _ => true),
   (C8_put_failure_swallowed (store1 "b" "k.csv" "id,name\n1,J\n")
      "s3://b/k.csv" "b" "k.csv" "id,name\n1,J\n" "id,name\r\n1,***\r\n"
      "s3://out/" "out" "" ["name"] (by decide) (by decide)
      (by decide) (by decide) rfl (by decide) (by decide) (by decide)
      (by decide)).2 rfl (fun _ _ => false)⟩

/-- C8 counterexample: with a destination location that has no key separator
(`s3://nokey`), the transform itself succeeds (the get is in the trace), but
the secondary-write failure is not swallowed: the unpacking `ValueError` of
line 116 escapes — it is outside the `except ClientError` — and the caller
gets an error instead of the masked payload. -/
theorem C8_counterexample :
    obfuscate_pii (store1 "b" "k.csv" "id,name\n1,J\n") (fun _ _ => false)
      ⟨some "s3://b/k.csv", some (.strs ["name"]), some "s3://nokey"⟩
      = (.error (.valueError "not enough values to unpack (expected 2, got 1)"),
          [.get "b" "k.csv"]) := by decide

/-- C9 amended: the 200/400/404/500 mapping holds for
`lambda_function.lambda_handler` (its result-mapping code `lambdaFinish`:
success is 200 with the payload, a not-found engine `ValueError` is 404,
every other engine `ValueError` is 400, and a non-`ValueError` exception —
here `ParamValidationError` — falls to the outer handler and is 500), and a
direct invocation with a non-empty field list routes the engine result
through exactly that mapping.  The `src/handler.py` entry point does not
obey the claimed mapping: its blanket exception handler makes every
response 200 or 400 — never 404 or 500. -/
theorem C9_status_mapping :
    (∀ r, lambdaFinish (.ok r) = ⟨200, r⟩)
    ∧ (∀ e, hasSubstr "S3 file not found" e = true →
        lambdaFinish (.error (.valueError e)) = ⟨404, "File not found"⟩)
    ∧ (∀ e, hasSubstr "S3 file not found" e = false →
        lambdaFinish (.error (.valueError e)) = ⟨400, e⟩)
    ∧ (∀ e, lambdaFinish (.error (.paramValidationError e))
        = ⟨500, "Error processing file: " ++ e⟩)
    ∧ (∀ (store : Store) (pf : String → String → Bool) (env : Option String)
        (p : String) (l : List String) (rec : Option (String × String))
        (op : Option String), l ≠ [] →
        lambda_handler store pf env ⟨some (.strs l), some p, rec, op⟩
          = lambdaFinish (obfuscate_pii store pf
              ⟨some p, some (.strs l), truthyStr op⟩).1)
    ∧ (∀ (store : Store) (f : Option String) (p : Option PiiSpec),
        (handler2 store f p).statusCode = 200
          ∨ (handler2 store f p).statusCode = 400) := by
  refine ⟨fun r => rfl, ?_, ?_, fun e => rfl, ?_, ?_⟩
  · intro e he
    simp only [lambdaFinish]
    rw [if_pos he]
  · intro e he
    simp only [lambdaFinish]
    rw [if_neg (by simp [he])]
  · intro store pf env p l rec op hl
    simp only [lambda_handler, lambdaRun]
    rw [if_neg hl]
  · intro store f p
    rcases f with _ | path
    · rcases p with _ | ps
      · right; rfl
      · right; rfl
    · rcases p with _ | ps
      · right; rfl
      · cases ps with
        | nonList =>
          simp only [handler2]
          by_cases hcond : path = "" ∨ PiiSpec.nonList = PiiSpec.strs []
          · rw [if_pos hcond]; right; rfl
          · rw [if_neg hcond]
            by_cases hk2 : (urlparseS3 path).2 = ""
            · rw [if_pos hk2]; right; rfl
            · rw [if_neg hk2]
              cases hobj :
                  store.objects (urlparseS3 path).1 (urlparseS3 path).2 with
              | none => right; rfl
              | some content => right; rfl
        | strs pii =>
          simp only [handler2]
          by_cases hcond : path = "" ∨ PiiSpec.strs pii = PiiSpec.strs []
          · rw [if_pos hcond]; right; rfl
          · rw [if_neg hcond]
            by_cases hk2 : (urlparseS3 path).2 = ""
            · rw [if_pos hk2]; right; rfl
            · rw [if_neg hk2]
              cases hobj :
                  store.objects (urlparseS3 path).1 (urlparseS3 path).2 with
              | none => right; rfl
              | some content =>
                simp only []
                cases hoc : obfuscate_csv content pii with
                | ok r => left; rfl
                | error e => right; rfl

theorem C9_status_mapping_witness :
    lambdaFinish (.ok "payload") = ⟨200, "payload"⟩
    ∧ lambdaFinish (.error (.valueError "S3 file not found"))
        = ⟨404, "File not found"⟩
    ∧ lambdaFinish (.error (.valueError "Invalid S3 path"))
        = ⟨400, "Invalid S3 path"⟩
    ∧ lambdaFinish (.error (.paramValidationError keyLenMsg))
        = ⟨500, "Error processing file: " ++ keyLenMsg⟩
    ∧ lambda_handler (store1 "b" "k.csv" "id,name\n1,J\n") (fun _ _ => false)
        none ⟨some (.strs ["name"]), some "s3://b/k.csv", none, none⟩
        = lambdaFinish (obfuscate_pii (store1 "b" "k.csv" "id,name\n1,J\n")
            (fun _ _ => false)
            ⟨some "s3://b/k.csv", some (.strs ["name"]), truthyStr none⟩).1
    ∧ ((handler2 (store1 "b" "k.csv" "id,name\n1,J\n") (some "s3://b/k.csv")
          (some (.strs ["name"]))).statusCode = 200
        ∨ (handler2 (store1 "b" "k.csv" "id,name\n1,J\n")
            (some "s3://b/k.csv") (some (.strs ["name"]))).statusCode = 400) :=
  ⟨C9_status_mapping.1 "payload",
   C9_status_mapping.2.1 "S3 file not found" (by decide),
   C9_status_mapping.2.2.1 "Invalid S3 path" (by decide),
   C9_status_mapping.2.2.2.1 keyLenMsg,
   C9_status_mapping.2.2.2.2.1 (store1 "b" "k.csv" "id,name\n1,J\n")
     (fun _ _ => false) none "s3://b/k.csv" ["name"] none none (by decide),
   C9_status_mapping.2.2.2.2.2 (store1 "b" "k.csv" "id,name\n1,J\n")
     (some "s3://b/k.csv") (some (.strs ["name"]))⟩

/-- C9 counterexample: for `src/src/handler.py`, a request whose source
object does not exist yields status 400 (the blanket handler), not the 404
the claimed mapping requires of every handler entry point. -/
theorem C9_counterexample :
    handler2 (store1 "b" "k.csv" "id,name\n1,J\n") (some "s3://b/missing.csv")
      (some (.strs ["name"]))
      = ⟨400,
          "An error occurred (NoSuchKey) when calling the GetObject operation"⟩
    ∧ (400 : Nat) ≠ 404 := by decide

/-- C10: noninterference of the masking step.  Two fetched payloads with the
same header, the same number of data records, and identical cell values in
every column whose name is not a PII field (the PII cells may differ
arbitrarily, and a record may even omit trailing PII cells) are mapped by
the masking-and-serialization stage of `obfuscate_pii` to identical output
bytes: the output reveals nothing about the redacted cell contents. -/
theorem C10_noninterference (c1 c2 : String) (pii f : List String)
    (r1 r2 : List (List String))
    (h1 : csvParseRaw c1 = f :: r1) (h2 : csvParseRaw c2 = f :: r2)
    (hnd : f.Nodup)
    (hlen : (r1.filter (· ≠ [])).length = (r2.filter (· ≠ [])).length)
    (hle1 : ∀ r ∈ r1.filter (· ≠ []), r.length ≤ f.length)
    (hle2 : ∀ r ∈ r2.filter (· ≠ []), r.length ≤ f.length)
    (hagree : ∀ i j, i < (r1.filter (· ≠ [])).length → j < f.length →
        f.getD j "" ∉ pii →
        ((r1.filter (· ≠ [])).getD i []).getD j ""
          = ((r2.filter (· ≠ [])).getD i []).getD j "") :
    processCsv c1 pii = processCsv c2 pii := by
  simp only [processCsv, h1, h2]
  by_cases hf : f = []
  · rw [if_pos hf, if_pos hf]
  · rw [if_neg hf, if_neg hf]
    cases hval : pii.find? (fun x => !(f.contains x)) with
    | some x => rfl
    | none =>
      rw [maskRows_of_le f pii _ hle1, maskRows_of_le f pii _ hle2]
      simp only []
      have hmaps : (r1.filter (· ≠ [])).map (fun r =>
            f.map (writtenCell f pii r))
          = (r2.filter (· ≠ [])).map (fun r =>
            f.map (writtenCell f pii r)) := by
        apply List.ext_getElem (by simpa using hlen)
        intro i hi1 hi2
        simp only [List.getElem_map]
        apply List.ext_getElem (by simp)
        intro j hj1 hj2
        simp only [List.getElem_map]
        have hjlt : j < f.length := by simpa using hj1
        have hilt1 : i < (r1.filter (· ≠ [])).length := by simpa using hi1
        have hilt2 : i < (r2.filter (· ≠ [])).length := by
          rw [← hlen]; exact hilt1
        by_cases hp : f[j] ∈ pii
        · rw [writtenCell_pii f pii _ _ hp, writtenCell_pii f pii _ _ hp]
        · have hcells := hagree i j hilt1 hjlt
            (by rw [List.getD_eq_getElem f "" hjlt]; exact hp)
          rw [List.getD_eq_getElem (r1.filter (· ≠ [])) [] hilt1,
            List.getD_eq_getElem (r2.filter (· ≠ [])) [] hilt2] at hcells
          rw [writtenCell_nonpii_elem f pii _ hnd j hjlt hp,
            writtenCell_nonpii_elem f pii _ hnd j hjlt hp]
          exact hcells
      rw [hmaps]

theorem C10_noninterference_witness :
    processCsv "id,name\n1,John\n" ["name"]
      = processCsv "id,name\n1,Jane\n" ["name"] :=
  C10_noninterference "id,name\n1,John\n" "id,name\n1,Jane\n" ["name"]
    ["id", "name"] [["1", "John"]] [["1", "Jane"]] (by decide) (by decide)
    (by decide) (by decide) (by decide) (by decide)
    (by
      intro i j hi hj hnp
      rw [show (([["1", "John"]] : List (List String)).filter
          (· ≠ [])).length = 1 from by decide] at hi
      rw [show (["id", "name"] : List String).length = 2 from rfl] at hj
      have hi0 : i = 0 := by omega
      subst hi0
      rcases j with _ | _ | j
      · decide
      · exact absurd (by decide) hnp
      · exact absurd hj (by omega))
